import Mathlib

/-!
Verification of the concept/meaning matching game (`src/app.py`).

The program is a single-page web app whose engine state lives in a
framework-managed session dictionary.  We embed that state as the
structure `AppState` and every user intent that mutates it as an
`Event`; the function `step` is a literal translation of the handler
code that runs for each intent.  External effects (the generative
model call, the database, rendering) carry no engine state and are
modelled by the data they hand back to the handlers.
-/

/-- One concept/meaning pair, as produced by `generate_quiz_pairs`
(`{"concept": ..., "meaning": ...}`). -/
structure Pair where
  concept : String
  meaning : String
deriving DecidableEq, Repr

/-- The session-state dictionary of `app.py` (lines 150-169), restricted to
the fields the game engine reads or writes. -/
structure AppState where
  game_active : Bool
  pairs : List Pair
  shuffled_concepts : List String
  shuffled_meanings : List String
  selected_concept : Option String
  selected_meaning : Option String
  matched_pairs : List String
  score : Nat
  current_source_content : String
  current_source_type : String
deriving DecidableEq, Repr

/-- The initial session state (`app.py` lines 150-169): inactive, empty
round data, no selections, score 0. -/
def initState : AppState :=
  { game_active := false
    pairs := []
    shuffled_concepts := []
    shuffled_meanings := []
    selected_concept := none
    selected_meaning := none
    matched_pairs := []
    score := 0
    current_source_content := ""
    current_source_type := "" }

/-- Python truthiness of an optional string: `None` and the empty string
are falsy, every other string is truthy.  The match-logic guard
`if st.session_state.selected_concept and st.session_state.selected_meaning`
(line 364) tests exactly this. -/
def truthy : Option String → Bool
  | none => false
  | some s => !(s == "")

/-- The win condition of line 345:
`len(matched_pairs) == len(pairs) and len(pairs) > 0`. -/
def winCond (s : AppState) : Bool :=
  s.matched_pairs.length == s.pairs.length && decide (0 < s.pairs.length)

/-- The match-resolution loop of lines 366-372, translated literally.
`for p in pairs: if p.concept == c and p.meaning == m: found; append c;
score += 1; break`.  Returns (match_found, matched_pairs, score); the
`break` is encoded by not recursing after the first hit. -/
def runMatchLoop (c m : String) : List Pair → List String → Nat → Bool × List String × Nat
  | [], matched, score => (false, matched, score)
  | p :: rest, matched, score =>
    if p.concept == c && p.meaning == m then (true, matched ++ [c], score + 1)
    else runMatchLoop c m rest matched score

/-- The user-visible outcome of one resolution: success, or the
mismatch message of line 375 naming both selections. -/
inductive Outcome where
  | Matched
  | Mismatched (concept meaning : String)
deriving DecidableEq, Repr

/-- The outcome reported by the match-logic block for a state in which
resolution fires: `Matched` iff the loop found a matching entry,
otherwise `Mismatched` with the two selections (line 375). -/
def resolveOutcome (s : AppState) : Outcome :=
  let c := s.selected_concept.getD ""
  let m := s.selected_meaning.getD ""
  if (runMatchLoop c m s.pairs s.matched_pairs s.score).1 then Outcome.Matched
  else Outcome.Mismatched c m

/-- Model of `random.sample(l, len(l))` driven by an arbitrary index
seed: repeatedly draw the element at position `seed_head mod length`
from the remaining list.  The fuel argument is the length of the
original list, which makes the recursion structural; every seed yields
some permutation of the input, which is all the code relies on. -/
def sampleFuel : Nat → List Nat → List α → List α
  | 0, _, _ => []
  | _ + 1, _, [] => []
  | fuel + 1, seed, a :: rest =>
    let i := seed.headD 0 % (a :: rest).length
    (a :: rest).getD i a :: sampleFuel fuel seed.tail ((a :: rest).eraseIdx i)

/-- `random.sample(l, len(l))`: a seed-determined permutation of `l`. -/
def randomSample (seed : List Nat) (l : List α) : List α :=
  sampleFuel l.length seed l

/-- Python's `str.strip()`: remove leading and trailing whitespace.
Defined over the character list so that it evaluates in the kernel. -/
def pyStrip (s : String) : String :=
  String.mk (((s.data.dropWhile Char.isWhitespace).reverse.dropWhile Char.isWhitespace).reverse)

/-- The "Quiz Oluştur (Metin)" handler (lines 192-212).  Only reachable
while the menu is shown (`game_active` false).  An empty (post-strip)
input text is rejected with an error message and no state change;
otherwise the generated pairs — `gen = none` models a generation
failure, which also leaves the state unchanged — are installed, both
orders are independently shuffled, and the game is activated.
`matched_pairs`, the selections, and `score` are not written by this
handler. -/
def startQuizStep (text : String) (gen : Option (List Pair))
    (seedC seedM : List Nat) (s : AppState) : AppState :=
  if s.game_active then s
  else if pyStrip text == "" then s
  else
    match gen with
    | none => s
    | some ps =>
      { s with
        current_source_content := text
        current_source_type := "text"
        pairs := ps
        shuffled_concepts := randomSample seedC (ps.map Pair.concept)
        shuffled_meanings := randomSample seedM (ps.map Pair.meaning)
        game_active := true }

/-- The "Menüye Dön" handler (lines 333-339): deactivate the game,
clear both selections and `matched_pairs`, zero the score.  `pairs`
and the two shuffled orders are not touched. -/
def menuReturnStep (s : AppState) : AppState :=
  if s.game_active then
    { s with
      game_active := false
      selected_concept := none
      selected_meaning := none
      matched_pairs := []
      score := 0 }
  else s

/-- The "Yeni Soruları Getir" handler (lines 348-358), reachable only on
the game screen once the win condition holds: install the freshly
generated pairs, reshuffle both orders, clear `matched_pairs` and the
selections.  `score` and the stored source content are untouched; a
generation failure (`gen = none`) changes nothing. -/
def newRoundStep (gen : Option (List Pair)) (seedC seedM : List Nat)
    (s : AppState) : AppState :=
  if s.game_active && winCond s then
    match gen with
    | none => s
    | some np =>
      { s with
        pairs := np
        shuffled_concepts := randomSample seedC (np.map Pair.concept)
        shuffled_meanings := randomSample seedM (np.map Pair.meaning)
        matched_pairs := []
        selected_concept := none
        selected_meaning := none }
  else s

/-- A meaning displays as matched iff some pair owns it whose concept
is already in `matched_pairs` (lines 399-403). -/
def meaningMatched (s : AppState) (m : String) : Bool :=
  s.pairs.any fun p => p.meaning == m && s.matched_pairs.contains p.concept

/-- A concept button click (lines 390-393): buttons exist only on the
game screen, below the win check, for concepts of the shuffled order
that are not yet matched.  Clicking toggles the selection. -/
def selectConceptStep (c : String) (s : AppState) : AppState :=
  if s.game_active && !winCond s && s.shuffled_concepts.contains c
      && !s.matched_pairs.contains c then
    { s with selected_concept := if s.selected_concept = some c then none else some c }
  else s

/-- A meaning button click (lines 408-411), symmetric to the concept
case, gated on the meaning not belonging to an already-matched pair. -/
def selectMeaningStep (m : String) (s : AppState) : AppState :=
  if s.game_active && !winCond s && s.shuffled_meanings.contains m
      && !meaningMatched s m then
    { s with selected_meaning := if s.selected_meaning = some m then none else some m }
  else s

/-- The match-logic block (lines 364-379): it runs on the game screen,
in the non-win branch, when both selections are truthy.  It runs the
match loop (first match appends the selected concept and increments the
score), then unconditionally clears both selections. -/
def resolveStep (s : AppState) : AppState :=
  if s.game_active && !winCond s && truthy s.selected_concept
      && truthy s.selected_meaning then
    let c := s.selected_concept.getD ""
    let m := s.selected_meaning.getD ""
    let r := runMatchLoop c m s.pairs s.matched_pairs s.score
    { s with
      matched_pairs := r.2.1
      score := r.2.2
      selected_concept := none
      selected_meaning := none }
  else s

/-- User intents that mutate the engine state.  `startQuiz` carries the
input text and the generation result (`none` for a failed generation)
plus the two shuffle seeds; `newRound` likewise. -/
inductive Event where
  | startQuiz (text : String) (gen : Option (List Pair)) (seedC seedM : List Nat)
  | menuReturn
  | newRound (gen : Option (List Pair)) (seedC seedM : List Nat)
  | selectConcept (c : String)
  | selectMeaning (m : String)
  | resolve
deriving DecidableEq, Repr

/-- One step of the app: dispatch the intent to its handler. -/
def step : Event → AppState → AppState
  | Event.startQuiz text gen seedC seedM, s => startQuizStep text gen seedC seedM s
  | Event.menuReturn, s => menuReturnStep s
  | Event.newRound gen seedC seedM, s => newRoundStep gen seedC seedM s
  | Event.selectConcept c, s => selectConceptStep c s
  | Event.selectMeaning m, s => selectMeaningStep m s
  | Event.resolve, s => resolveStep s

/-- States the app can actually be in: the initial session state and
everything reachable from it by user intents. -/
inductive Reachable : AppState → Prop where
  | start : Reachable initState
  | next : ∀ {s : AppState} (e : Event), Reachable s → Reachable (step e s)

/-- A JSON value, the result of `json.loads` on a model response. -/
inductive JsonVal where
  | jnull
  | jbool (b : Bool)
  | jnum (n : Int)
  | jstr (s : String)
  | jarr (elems : List JsonVal)
  | jobj (fields : List (String × JsonVal))

/-- The key-retry loop of `generate_quiz_pairs` (lines 118-134): the
first attempt whose response text parses as JSON (after stripping
code fences) supplies the return value; any exception — API failure or
unparseable payload — falls through to the next key.  Each attempt is
modelled by the JSON value its response parses to, `none` when the
attempt raises. -/
def firstParsed : List (Option JsonVal) → Option JsonVal
  | [] => none
  | none :: rest => firstParsed rest
  | some v :: _ => some v

/-- `generate_quiz_pairs` (lines 97-138) over the modelled attempts:
raise when no API key is configured; otherwise return the first
attempt's parsed JSON as-is, or raise after all attempts failed.
The parsed value is returned without any shape validation. -/
def generate_quiz_pairs (attempts : List (Option JsonVal)) : Except String JsonVal :=
  if attempts.isEmpty then Except.error "API Key eksik!"
  else
    match firstParsed attempts with
    | some v => Except.ok v
    | none => Except.error "Tum API anahtarlari denendi ve basarisiz oldu"

/-- First value bound to a field name in a JSON object. -/
def lookupField (fields : List (String × JsonVal)) (k : String) : Option JsonVal :=
  match fields with
  | [] => none
  | f :: rest => if f.1 == k then some f.2 else lookupField rest k

/-- Whether a JSON value is an object with string fields `concept` and
`meaning` — the element shape the external contract promises. -/
def isPairObject : JsonVal → Bool
  | JsonVal.jobj fields =>
    (match lookupField fields "concept" with
     | some (JsonVal.jstr _) => true
     | _ => false) &&
    (match lookupField fields "meaning" with
     | some (JsonVal.jstr _) => true
     | _ => false)
  | _ => false

/-- Whether a JSON value is a sequence all of whose elements are
well-shaped `{concept, meaning}` objects. -/
def wellFormedPairsJson : JsonVal → Bool
  | JsonVal.jarr elems => elems.all isPairObject
  | _ => false

/-- A concrete mid-round game state used to instantiate theorems: two
pairs, nothing matched yet, both selections pending on the first pair. -/
def exGame : AppState :=
  { game_active := true
    pairs := [⟨"Mitosis", "Cell division"⟩, ⟨"Osmosis", "Water movement"⟩]
    shuffled_concepts := ["Osmosis", "Mitosis"]
    shuffled_meanings := ["Cell division", "Water movement"]
    selected_concept := some "Mitosis"
    selected_meaning := some "Cell division"
    matched_pairs := []
    score := 0
    current_source_content := "t"
    current_source_type := "text" }

/-- A concrete completed-round state: the single pair is matched, some
score has been accumulated. -/
def exWin : AppState :=
  { game_active := true
    pairs := [⟨"a", "b"⟩]
    shuffled_concepts := ["a"]
    shuffled_meanings := ["b"]
    selected_concept := none
    selected_meaning := none
    matched_pairs := ["a"]
    score := 3
    current_source_content := "t"
    current_source_type := "text" }

/-- A parseable model response that is a JSON array with one well-shaped
pair object followed by a bare number: valid JSON, malformed as a pair
sequence. -/
def malformedResponse : JsonVal :=
  JsonVal.jarr
    [JsonVal.jobj [("concept", JsonVal.jstr "Mitosis"), ("meaning", JsonVal.jstr "Cell division")],
     JsonVal.jnum 5]

/-! Helper lemmas. -/

/-- Characterisation of the match loop: when some entry matches both
selections it reports success, appends the selected concept once, and
increments the score once; otherwise it changes nothing. -/
theorem runMatchLoop_spec (c m : String) (pairs : List Pair)
    (matched : List String) (score : Nat) :
    runMatchLoop c m pairs matched score =
      if pairs.any (fun p => p.concept == c && p.meaning == m) then
        (true, matched ++ [c], score + 1)
      else (false, matched, score) := by
  induction pairs with
  | nil => rfl
  | cons p rest ih =>
    by_cases h : (p.concept == c && p.meaning == m) = true <;>
      simp [runMatchLoop, List.any_cons, h, ih]

/-- Drawing the element at a valid index and the remainder is a
permutation of the original list. -/
theorem getD_cons_eraseIdx_perm (l : List α) (i : Nat) (d : α)
    (h : i < l.length) : List.Perm (l.getD i d :: l.eraseIdx i) l := by
  induction l generalizing i with
  | nil => simp at h
  | cons a rest ih =>
    cases i with
    | zero => simp [List.getD]
    | succ j =>
      have hj : j < rest.length := by simpa using h
      have hswap : List.Perm ((a :: rest).getD (j + 1) d :: (a :: rest).eraseIdx (j + 1))
          (a :: (rest.getD j d :: rest.eraseIdx j)) := by
        simp only [List.getD_cons_succ, List.eraseIdx_cons_succ]
        exact List.Perm.swap a (rest.getD j d) (rest.eraseIdx j)
      exact hswap.trans (List.Perm.cons a (ih j hj))

/-- With enough fuel, the sampler produces a permutation of its input. -/
theorem sampleFuel_perm (fuel : Nat) (seed : List Nat) (l : List α)
    (h : l.length ≤ fuel) : List.Perm (sampleFuel fuel seed l) l := by
  induction fuel generalizing seed l with
  | zero =>
    have : l = [] := List.eq_nil_of_length_eq_zero (Nat.le_zero.mp h)
    simp [this, sampleFuel]
  | succ fuel ih =>
    cases l with
    | nil => simp [sampleFuel]
    | cons a rest =>
      have hi : seed.headD 0 % (a :: rest).length < (a :: rest).length :=
        Nat.mod_lt _ (by simp)
      have hlen : ((a :: rest).eraseIdx (seed.headD 0 % (a :: rest).length)).length ≤ fuel := by
        rw [List.length_eraseIdx_of_lt hi]
        simpa using Nat.le_of_succ_le_succ (Nat.le_trans h (Nat.le_refl _))
      refine List.Perm.trans (List.Perm.cons _ (ih seed.tail _ hlen)) ?_
      exact getD_cons_eraseIdx_perm _ _ _ hi

/-- `randomSample` returns a permutation of its input for every seed. -/
theorem randomSample_perm (seed : List Nat) (l : List α) :
    List.Perm (randomSample seed l) l :=
  sampleFuel_perm l.length seed l (Nat.le_refl _)

/-- Reachability invariant: whenever the menu is shown (`game_active`
false), `matched_pairs` is empty and both selections are clear — the
initial state satisfies this and the only transition into the menu,
"Menüye Dön", establishes it. -/
theorem menu_state_clear {s : AppState} (hr : Reachable s)
    (hga : s.game_active = false) :
    s.matched_pairs = [] ∧ s.selected_concept = none ∧ s.selected_meaning = none := by
  induction hr with
  | start => exact ⟨rfl, rfl, rfl⟩
  | next e hs ih =>
    rename_i s0
    cases e with
    | startQuiz text gen seedC seedM =>
      simp only [step, startQuizStep] at hga ⊢
      by_cases h1 : s0.game_active = true
      · simp only [if_pos h1] at hga ⊢; exact ih hga
      · by_cases h2 : (pyStrip text == "") = true
        · simp only [if_neg h1, if_pos h2] at hga ⊢; exact ih hga
        · cases gen with
          | none => simp only [if_neg h1, if_neg h2] at hga ⊢; exact ih hga
          | some ps =>
            simp only [if_neg h1, if_neg h2] at hga
            simp at hga
    | menuReturn =>
      simp only [step, menuReturnStep] at hga ⊢
      by_cases h1 : s0.game_active = true
      · simp [if_pos h1]
      · simp only [if_neg h1] at hga ⊢; exact ih hga
    | newRound gen seedC seedM =>
      simp only [step, newRoundStep] at hga ⊢
      by_cases h1 : (s0.game_active && winCond s0) = true
      · cases gen with
        | none => simp only [if_pos h1] at hga ⊢; exact ih hga
        | some np =>
          have h1' := h1
          rw [Bool.and_eq_true] at h1'
          simp only [if_pos h1] at hga
          simp [h1'.1] at hga
      · simp only [if_neg h1] at hga ⊢; exact ih hga
    | selectConcept c =>
      simp only [step, selectConceptStep] at hga ⊢
      by_cases h1 : (s0.game_active && !winCond s0 && s0.shuffled_concepts.contains c
          && !s0.matched_pairs.contains c) = true
      · have h1' := h1
        simp only [Bool.and_eq_true] at h1'
        simp only [if_pos h1] at hga
        simp [h1'.1.1.1] at hga
      · simp only [if_neg h1] at hga ⊢; exact ih hga
    | selectMeaning m =>
      simp only [step, selectMeaningStep] at hga ⊢
      by_cases h1 : (s0.game_active && !winCond s0 && s0.shuffled_meanings.contains m
          && !meaningMatched s0 m) = true
      · have h1' := h1
        simp only [Bool.and_eq_true] at h1'
        simp only [if_pos h1] at hga
        simp [h1'.1.1.1] at hga
      · simp only [if_neg h1] at hga ⊢; exact ih hga
    | resolve =>
      simp only [step, resolveStep] at hga ⊢
      by_cases h1 : (s0.game_active && !winCond s0 && truthy s0.selected_concept
          && truthy s0.selected_meaning) = true
      · have h1' := h1
        simp only [Bool.and_eq_true] at h1'
        simp only [if_pos h1] at hga
        simp [h1'.1.1.1] at hga
      · simp only [if_neg h1] at hga ⊢; exact ih hga

/-- A successful attempt somewhere in the list gives the retry loop a
value to return, and that value is one of the attempts' values. -/
theorem firstParsed_mem (attempts : List (Option JsonVal)) (v : JsonVal)
    (hv : some v ∈ attempts) :
    ∃ w, firstParsed attempts = some w ∧ some w ∈ attempts := by
  induction attempts with
  | nil => simp at hv
  | cons a rest ih =>
    cases a with
    | some w => exact ⟨w, rfl, List.mem_cons_self _ _⟩
    | none =>
      rcases List.mem_cons.mp hv with h | h
      · exact absurd h (by simp)
      · obtain ⟨w, hw1, hw2⟩ := ih h
        exact ⟨w, hw1, List.mem_cons_of_mem _ hw2⟩

/-- When every attempt fails, the retry loop has nothing to return. -/
theorem firstParsed_none (attempts : List (Option JsonVal))
    (hall : ∀ a ∈ attempts, a = none) : firstParsed attempts = none := by
  induction attempts with
  | nil => rfl
  | cons a rest ih =>
    have ha := hall a (List.mem_cons_self a rest)
    subst ha
    exact ih fun b hb => hall b (List.mem_cons_of_mem _ hb)

/-- C1: whenever resolution fires (both selections are pending and
non-empty, on the game screen in the non-win branch), if some entry of
`pairs` has this concept and this meaning then the outcome is
`Matched`, the selected concept is appended to `matched_pairs`, and
the score increases by 1; otherwise the outcome is `Mismatched` with
both selections and `matched_pairs` and the score are unchanged. -/
theorem resolution_correct {s : AppState} {c m : String}
    (hga : s.game_active = true) (hw : winCond s = false)
    (hc : s.selected_concept = some c) (hc0 : c ≠ "")
    (hm : s.selected_meaning = some m) (hm0 : m ≠ "") :
    if s.pairs.any (fun p => p.concept == c && p.meaning == m) then
      resolveOutcome s = Outcome.Matched ∧
      (step Event.resolve s).matched_pairs = s.matched_pairs ++ [c] ∧
      (step Event.resolve s).score = s.score + 1
    else
      resolveOutcome s = Outcome.Mismatched c m ∧
      (step Event.resolve s).matched_pairs = s.matched_pairs ∧
      (step Event.resolve s).score = s.score := by
  have htc : truthy s.selected_concept = true := by simp [truthy, hc, hc0]
  have htm : truthy s.selected_meaning = true := by simp [truthy, hm, hm0]
  have hguard : (s.game_active && !winCond s && truthy s.selected_concept
      && truthy s.selected_meaning) = true := by simp [hga, hw, htc, htm]
  simp only [step, resolveStep, resolveOutcome, hc, hm,
    Option.getD_some, runMatchLoop_spec]
  by_cases h : (s.pairs.any fun p => p.concept == c && p.meaning == m) = true
  · simp [h, hga, hw, truthy, hc0, hm0]
  · simp [h, hga, hw, truthy, hc0, hm0]

/-- C1 witness: in the concrete state `exGame`, selecting "Mitosis" and
"Cell division" resolves as the claim describes. -/
theorem resolution_correct_witness :
    if exGame.pairs.any (fun p => p.concept == "Mitosis" && p.meaning == "Cell division") then
      resolveOutcome exGame = Outcome.Matched ∧
      (step Event.resolve exGame).matched_pairs = exGame.matched_pairs ++ ["Mitosis"] ∧
      (step Event.resolve exGame).score = exGame.score + 1
    else
      resolveOutcome exGame = Outcome.Mismatched "Mitosis" "Cell division" ∧
      (step Event.resolve exGame).matched_pairs = exGame.matched_pairs ∧
      (step Event.resolve exGame).score = exGame.score :=
  resolution_correct rfl (by decide) rfl (by decide) rfl (by decide)

/-- C2: after any firing resolution, matched or mismatched, both
selections are cleared to `none`. -/
theorem resolution_clears_selections {s : AppState}
    (hga : s.game_active = true) (hw : winCond s = false)
    (htc : truthy s.selected_concept = true) (htm : truthy s.selected_meaning = true) :
    (step Event.resolve s).selected_concept = none ∧
    (step Event.resolve s).selected_meaning = none := by
  have hguard : (s.game_active && !winCond s && truthy s.selected_concept
      && truthy s.selected_meaning) = true := by simp [hga, hw, htc, htm]
  simp [step, resolveStep, hga, hw, htc, htm]

/-- C2 witness: resolving the pending selections of `exGame` clears both. -/
theorem resolution_clears_selections_witness :
    (step Event.resolve exGame).selected_concept = none ∧
    (step Event.resolve exGame).selected_meaning = none :=
  resolution_clears_selections rfl (by decide) (by decide) (by decide)

/-- C3: starting a round from the menu (the only place the start
handler can run) leaves `matched_pairs` empty and both selections
`none` — they are already clear in every reachable menu state and the
handler does not write them — and does not modify the score. -/
theorem start_resets_round_state {s : AppState} (hr : Reachable s)
    (hga : s.game_active = false) (text : String) (ht : (pyStrip text == "") = false)
    (P : List Pair) (hP : P ≠ []) (seedC seedM : List Nat) :
    (step (Event.startQuiz text (some P) seedC seedM) s).matched_pairs = [] ∧
    (step (Event.startQuiz text (some P) seedC seedM) s).selected_concept = none ∧
    (step (Event.startQuiz text (some P) seedC seedM) s).selected_meaning = none ∧
    (step (Event.startQuiz text (some P) seedC seedM) s).score = s.score := by
  obtain ⟨h1, h2, h3⟩ := menu_state_clear hr hga
  have hga' : ¬(s.game_active = true) := by simp [hga]
  have ht' : ¬((pyStrip text == "") = true) := by simp [ht]
  simp only [step, startQuizStep, if_neg hga', if_neg ht']
  refine ⟨h1, h2, h3, ?_⟩
  trivial

/-- C3 witness: starting from the initial (menu) state with one pair. -/
theorem start_resets_round_state_witness :
    (step (Event.startQuiz "x" (some [⟨"a", "b"⟩]) [] []) initState).matched_pairs = [] ∧
    (step (Event.startQuiz "x" (some [⟨"a", "b"⟩]) [] []) initState).selected_concept = none ∧
    (step (Event.startQuiz "x" (some [⟨"a", "b"⟩]) [] []) initState).selected_meaning = none ∧
    (step (Event.startQuiz "x" (some [⟨"a", "b"⟩]) [] []) initState).score = initState.score :=
  start_resets_round_state Reachable.start rfl "x" (by decide) [⟨"a", "b"⟩] (by decide) [] []

/-- C4: after a successful start, the stored pairs are the generated
ones and each shuffled order is a permutation (same multiset) of the
corresponding projection of the pairs, for every shuffle seed. -/
theorem start_orders_are_permutations {s : AppState}
    (hga : s.game_active = false) (text : String) (ht : (pyStrip text == "") = false)
    (P : List Pair) (hP : P ≠ []) (seedC seedM : List Nat) :
    (step (Event.startQuiz text (some P) seedC seedM) s).pairs = P ∧
    List.Perm (step (Event.startQuiz text (some P) seedC seedM) s).shuffled_concepts
      (P.map Pair.concept) ∧
    List.Perm (step (Event.startQuiz text (some P) seedC seedM) s).shuffled_meanings
      (P.map Pair.meaning) := by
  have hga' : ¬(s.game_active = true) := by simp [hga]
  have ht' : ¬((pyStrip text == "") = true) := by simp [ht]
  simp only [step, startQuizStep, if_neg hga', if_neg ht']
  refine ⟨?_, randomSample_perm seedC _, randomSample_perm seedM _⟩
  trivial

/-- C4 witness: concrete start from the initial state. -/
theorem start_orders_are_permutations_witness :
    (step (Event.startQuiz "x" (some [⟨"a", "b"⟩]) [0] [1]) initState).pairs = [⟨"a", "b"⟩] ∧
    List.Perm (step (Event.startQuiz "x" (some [⟨"a", "b"⟩]) [0] [1]) initState).shuffled_concepts
      ([(⟨"a", "b"⟩ : Pair)].map Pair.concept) ∧
    List.Perm (step (Event.startQuiz "x" (some [⟨"a", "b"⟩]) [0] [1]) initState).shuffled_meanings
      ([(⟨"a", "b"⟩ : Pair)].map Pair.meaning) :=
  start_orders_are_permutations rfl "x" (by decide) [⟨"a", "b"⟩] (by decide) [0] [1]

/-- C5: fetching fresh questions after a completed round clears
`matched_pairs`, replaces the pairs and both shuffled orders with data
for the fresh pair set, and leaves the score unchanged. -/
theorem new_round_resets_matched {s : AppState}
    (hga : s.game_active = true) (hwin : winCond s = true)
    (NP : List Pair) (hNP : NP ≠ []) (seedC seedM : List Nat) :
    (step (Event.newRound (some NP) seedC seedM) s).matched_pairs = [] ∧
    (step (Event.newRound (some NP) seedC seedM) s).pairs = NP ∧
    List.Perm (step (Event.newRound (some NP) seedC seedM) s).shuffled_concepts
      (NP.map Pair.concept) ∧
    List.Perm (step (Event.newRound (some NP) seedC seedM) s).shuffled_meanings
      (NP.map Pair.meaning) ∧
    (step (Event.newRound (some NP) seedC seedM) s).score = s.score := by
  have hguard : (s.game_active && winCond s) = true := by simp [hga, hwin]
  simp only [step, newRoundStep, if_pos hguard]
  refine ⟨?_, ?_, randomSample_perm seedC _, randomSample_perm seedM _, ?_⟩ <;> trivial

/-- C5 witness: a fresh round over the completed state `exWin`. -/
theorem new_round_resets_matched_witness :
    (step (Event.newRound (some [⟨"c", "d"⟩]) [] []) exWin).matched_pairs = [] ∧
    (step (Event.newRound (some [⟨"c", "d"⟩]) [] []) exWin).pairs = [⟨"c", "d"⟩] ∧
    List.Perm (step (Event.newRound (some [⟨"c", "d"⟩]) [] []) exWin).shuffled_concepts
      ([(⟨"c", "d"⟩ : Pair)].map Pair.concept) ∧
    List.Perm (step (Event.newRound (some [⟨"c", "d"⟩]) [] []) exWin).shuffled_meanings
      ([(⟨"c", "d"⟩ : Pair)].map Pair.meaning) ∧
    (step (Event.newRound (some [⟨"c", "d"⟩]) [] []) exWin).score = exWin.score :=
  new_round_resets_matched rfl (by decide) [⟨"c", "d"⟩] (by decide) [] []

/-- C6 counterexample: returning to the menu from `exGame` zeroes the
score and clears `matched_pairs`, but the Round data survives — the
stored `pairs` list is still non-empty afterwards, so the Round state
is not cleared entirely as the claim asserts. -/
theorem reset_session_counterexample :
    (step Event.menuReturn exGame).score = 0 ∧
    (step Event.menuReturn exGame).matched_pairs = [] ∧
    (step Event.menuReturn exGame).selected_concept = none ∧
    (step Event.menuReturn exGame).selected_meaning = none ∧
    (step Event.menuReturn exGame).pairs ≠ [] ∧
    (step Event.menuReturn exGame).shuffled_concepts ≠ [] := by decide

/-- C6 amended: "Menüye Dön" sets the score to 0, clears
`matched_pairs` and both selections, and deactivates the game; the
stored pairs and both shuffled orders are left in place (stale but
unreachable until the next start overwrites them). -/
theorem reset_session_amended {s : AppState} (hga : s.game_active = true) :
    (step Event.menuReturn s).score = 0 ∧
    (step Event.menuReturn s).matched_pairs = [] ∧
    (step Event.menuReturn s).selected_concept = none ∧
    (step Event.menuReturn s).selected_meaning = none ∧
    (step Event.menuReturn s).game_active = false ∧
    (step Event.menuReturn s).pairs = s.pairs ∧
    (step Event.menuReturn s).shuffled_concepts = s.shuffled_concepts ∧
    (step Event.menuReturn s).shuffled_meanings = s.shuffled_meanings := by
  simp only [step, menuReturnStep, if_pos hga]
  refine ⟨?_, ?_, ?_, ?_, ?_, ?_, ?_, ?_⟩ <;> trivial

/-- C6 amended witness: returning to the menu from `exWin`. -/
theorem reset_session_amended_witness :
    (step Event.menuReturn exWin).score = 0 ∧
    (step Event.menuReturn exWin).matched_pairs = [] ∧
    (step Event.menuReturn exWin).selected_concept = none ∧
    (step Event.menuReturn exWin).selected_meaning = none ∧
    (step Event.menuReturn exWin).game_active = false ∧
    (step Event.menuReturn exWin).pairs = exWin.pairs ∧
    (step Event.menuReturn exWin).shuffled_concepts = exWin.shuffled_concepts ∧
    (step Event.menuReturn exWin).shuffled_meanings = exWin.shuffled_meanings :=
  reset_session_amended rfl

/-- C7: score is monotonically non-decreasing under every event other
than returning to the menu: starting, selecting, resolving and
fetching a new round never decrease it. -/
theorem score_monotone (e : Event) (s : AppState) (h : e ≠ Event.menuReturn) :
    s.score ≤ (step e s).score := by
  cases e with
  | menuReturn => exact absurd rfl h
  | startQuiz text gen seedC seedM =>
    simp only [step, startQuizStep]
    split
    · exact Nat.le_refl _
    · split
      · exact Nat.le_refl _
      · cases gen with
        | none => exact Nat.le_refl _
        | some ps => exact Nat.le_refl _
  | newRound gen seedC seedM =>
    simp only [step, newRoundStep]
    split
    · cases gen with
      | none => exact Nat.le_refl _
      | some np => exact Nat.le_refl _
    · exact Nat.le_refl _
  | selectConcept c =>
    simp only [step, selectConceptStep]
    split <;> exact Nat.le_refl _
  | selectMeaning m =>
    simp only [step, selectMeaningStep]
    split <;> exact Nat.le_refl _
  | resolve =>
    simp only [step, resolveStep]
    split
    · show s.score ≤ (runMatchLoop (s.selected_concept.getD "") (s.selected_meaning.getD "")
        s.pairs s.matched_pairs s.score).2.2
      rw [runMatchLoop_spec]
      split
      · exact Nat.le_succ _
      · exact Nat.le_refl _
    · exact Nat.le_refl _

/-- C7 witness: a resolution step from `exGame` does not decrease the score. -/
theorem score_monotone_witness : exGame.score ≤ (step Event.resolve exGame).score :=
  score_monotone Event.resolve exGame (by decide)

/-- C8 counterexample: from the initial menu state, starting with
non-empty input text whose generation yields an empty pair list is NOT
rejected: the state changes and a round becomes active (with zero
pairs), contradicting the claim that the engine state is unchanged. -/
theorem empty_pairs_start_counterexample :
    (step (Event.startQuiz "x" (some []) [] []) initState).game_active = true ∧
    step (Event.startQuiz "x" (some []) [] []) initState ≠ initState := by decide

/-- C8 amended: the start handler rejects only empty (post-strip) input
text; an empty generated pair sequence is accepted, and the round
becomes active with empty pairs and empty shuffled orders — there is
no EmptyPairSet rejection. -/
theorem empty_pairs_start_amended {s : AppState} (hga : s.game_active = false)
    (text : String) (ht : (pyStrip text == "") = false) (seedC seedM : List Nat) :
    (step (Event.startQuiz text (some []) seedC seedM) s).game_active = true ∧
    (step (Event.startQuiz text (some []) seedC seedM) s).pairs = [] ∧
    (step (Event.startQuiz text (some []) seedC seedM) s).shuffled_concepts = [] ∧
    (step (Event.startQuiz text (some []) seedC seedM) s).shuffled_meanings = [] := by
  have hga' : ¬(s.game_active = true) := by simp [hga]
  have ht' : ¬((pyStrip text == "") = true) := by simp [ht]
  simp only [step, startQuizStep, if_neg hga', if_neg ht']
  refine ⟨?_, ?_, ?_, ?_⟩ <;> trivial

/-- C8 amended witness: the concrete empty-pairs start from the menu. -/
theorem empty_pairs_start_amended_witness :
    (step (Event.startQuiz "x" (some []) [] []) initState).game_active = true ∧
    (step (Event.startQuiz "x" (some []) [] []) initState).pairs = [] ∧
    (step (Event.startQuiz "x" (some []) [] []) initState).shuffled_concepts = [] ∧
    (step (Event.startQuiz "x" (some []) [] []) initState).shuffled_meanings = [] :=
  empty_pairs_start_amended rfl "x" (by decide) [] []

/-- C9 counterexample: a response that parses as a JSON array holding
one well-shaped pair object and a bare number is returned as-is by the
generation function — a partially-malformed sequence is accepted
instead of raising a GenerationError. -/
theorem generate_not_all_or_nothing_counterexample :
    generate_quiz_pairs [some malformedResponse] = Except.ok malformedResponse ∧
    wellFormedPairsJson malformedResponse = false :=
  ⟨rfl, rfl⟩

/-- C9 amended: generation is all-or-nothing only at the JSON level:
whenever some key's response parses as JSON, the first such value is
returned unvalidated (its elements need not be `{concept, meaning}`
string objects); an error is raised exactly when no attempt yields
parseable JSON, including when no key is configured. -/
theorem generate_first_parse_amended (attempts : List (Option JsonVal)) :
    ((∃ v, some v ∈ attempts) →
      ∃ v, some v ∈ attempts ∧ generate_quiz_pairs attempts = Except.ok v) ∧
    ((∀ a ∈ attempts, a = none) →
      ∃ e, generate_quiz_pairs attempts = Except.error e) := by
  constructor
  · rintro ⟨v, hv⟩
    obtain ⟨w, hw1, hw2⟩ := firstParsed_mem attempts v hv
    refine ⟨w, hw2, ?_⟩
    have hne : attempts.isEmpty = false := by
      cases attempts
      · simp at hv
      · rfl
    simp [generate_quiz_pairs, hne, hw1]
  · intro hall
    by_cases he : attempts.isEmpty = true
    · exact ⟨"API Key eksik!", by simp [generate_quiz_pairs, he]⟩
    · refine ⟨"Tum API anahtarlari denendi ve basarisiz oldu", ?_⟩
      have hfp := firstParsed_none attempts hall
      simp [generate_quiz_pairs, he, hfp]

/-- C9 amended witness: a single parseable attempt is returned. -/
theorem generate_first_parse_amended_witness :
    ∃ v, some v ∈ [some (JsonVal.jarr [])] ∧
      generate_quiz_pairs [some (JsonVal.jarr [])] = Except.ok v :=
  (generate_first_parse_amended [some (JsonVal.jarr [])]).1 ⟨JsonVal.jarr [], by simp⟩

/-- C10: the match loop scans the pairs in stored order; the first
entry matching both selections decides a `Matched` outcome, appending
exactly one concept and adding exactly 1 to the score, regardless of
how many further matching entries follow it. -/
theorem first_match_appends_once (c m : String) (l1 l2 : List Pair) (p : Pair)
    (h1 : l1.all (fun q => !(q.concept == c && q.meaning == m)) = true)
    (hp : p.concept = c ∧ p.meaning = m) (matched : List String) (score : Nat) :
    runMatchLoop c m (l1 ++ p :: l2) matched score = (true, matched ++ [c], score + 1) := by
  rw [runMatchLoop_spec]
  have hany : ((l1 ++ p :: l2).any fun q => q.concept == c && q.meaning == m) = true := by
    simp [List.any_append, List.any_cons, hp.1, hp.2]
  simp [hany]

/-- C10 witness: a duplicate matching pair after the first one still
yields exactly one appended concept and exactly +1 score. -/
theorem first_match_appends_once_witness :
    runMatchLoop "Mitosis" "Cell division"
      ([⟨"Osmosis", "Water movement"⟩] ++
        (⟨"Mitosis", "Cell division"⟩ : Pair) :: [⟨"Mitosis", "Cell division"⟩])
      [] 0 = (true, [] ++ ["Mitosis"], 0 + 1) :=
  first_match_appends_once "Mitosis" "Cell division" [⟨"Osmosis", "Water movement"⟩]
    [⟨"Mitosis", "Cell division"⟩] ⟨"Mitosis", "Cell division"⟩
    (by decide) (by decide) [] 0
